import Mathlib

/-!
Shallow embedding of the `NewsTicker` headline-acquisition pipeline
(`loadHeadlines`, `loadFallbackFromTxt`, `loadFromCache`, `saveToCache`,
`renderHeadlines`) from the repository's news-ticker module.

JavaScript objects are modelled as records with `Option` fields (a missing
field is `none`); JS truthiness of strings/numbers (`x || d`, where `""` and
`0` are falsy) is modelled by the `jsOrS` / `jsStr` / `jsOrN` helpers.
`fetch` results are modelled by `FetchRes`: `ok` (2xx with body), `notOk`
(HTTP error response, `res.ok` false), and `netErr` (rejected promise /
thrown error) — the distinction matters because a thrown error aborts a
retry chain while a not-ok response lets it continue.  `localStorage` is an
association list from keys to parsed cache entries.  Times are integers
(epoch milliseconds).  Lowercasing / uppercasing is ASCII (all strings the
pipeline compares are ASCII).
-/

namespace NewsTicker

/-- JS `a || d` for an optional string field: `none` and `""` are falsy. -/
def jsOrS (o : Option String) (d : String) : String :=
  match o with
  | some s => if s = "" then d else s
  | none => d

/-- JS truthiness filter on an optional string: `some ""` is falsy. -/
def jsStr (o : Option String) : Option String :=
  match o with
  | some s => if s = "" then none else some s
  | none => none

/-- JS `a || d` for an optional numeric field: `none` and `0` are falsy. -/
def jsOrN (o : Option Int) (d : Int) : Int :=
  match o with
  | some n => if n = 0 then d else n
  | none => d

/-- JS `String.prototype.toLowerCase` (ASCII range). -/
def toLowerCase (s : String) : String := String.mk (s.toList.map Char.toLower)

/-- JS `String.prototype.toUpperCase` (ASCII range). -/
def toUpperCase (s : String) : String := String.mk (s.toList.map Char.toUpper)

/-- JS `String.prototype.startsWith`. -/
def startsWith (s pre : String) : Bool := pre.toList.isPrefixOf s.toList

/-- Strip leading and trailing whitespace from a character list. -/
def trimChars (l : List Char) : List Char :=
  ((l.dropWhile Char.isWhitespace).reverse.dropWhile Char.isWhitespace).reverse

/-- JS `String.prototype.trim`. -/
def jsTrim (s : String) : String := String.mk (trimChars s.toList)

/-- Split a character list at every character satisfying `p`; the separator
characters are dropped and the result is never empty. -/
def splitChars (p : Char → Bool) : List Char → List (List Char)
  | [] => [[]]
  | c :: rest =>
    match splitChars p rest with
    | [] => if p c then [[], []] else [[c]]
    | h :: t => if p c then [] :: h :: t else (c :: h) :: t

/-- JS `s.split('\n')`. -/
def splitNl (s : String) : List String :=
  (splitChars (fun c => c == '\n') s.toList).map String.mk

/-- Contiguous occurrence of `sub` at some position of the list. -/
def includesAux (sub : List Char) : List Char → Bool
  | [] => sub.isEmpty
  | c :: rest => sub.isPrefixOf (c :: rest) || includesAux sub rest

/-- JS `String.prototype.includes`: contiguous substring test. -/
def includes (s sub : String) : Bool := includesAux sub.toList s.toList

/-- JS `s.split(/\s+/)` on an already-trimmed string: whitespace-separated
fields. -/
def splitWs (s : String) : List String :=
  ((splitChars Char.isWhitespace s.toList).map String.mk).filter (fun t => t != "")

/-- A headline / raw feed record: a JS object whose fields may be absent. -/
structure Headline where
  source : Option String
  title : Option String
  url : Option String
  ts : Option Int
deriving DecidableEq, Repr

/-- A JSON item from a fallback JSON resource (fields may be absent). -/
structure Item where
  hashtag : Option String
  username : Option String
  comment : Option String
  text : Option String
  title : Option String
  headline : Option String
  source : Option String
  url : Option String
  ts : Option Int
deriving DecidableEq, Repr

/-- An `Item` with every field absent. -/
def itemNone : Item := ⟨none, none, none, none, none, none, none, none, none⟩

/-- Parsed body of a fallback JSON resource: a top-level array, an object
with an `items` array, an object with a `tweets` array, or anything else. -/
inductive JsonData where
  | arr (elems : List Item)
  | objItems (elems : List Item)
  | objTweets (elems : List Item)
  | other
deriving DecidableEq, Repr

/-- `Array.isArray(data) ? data : (data.items ?? (data.tweets ?? []))`
shape extraction (lines 368 and 416 of the source). -/
def extractItems : JsonData → List Item
  | .arr es => es
  | .objItems es => es
  | .objTweets es => es
  | .other => []

/-- Result of one `fetch` call: 2xx body, non-ok HTTP response, or a
rejected promise (network error / parse error treated by `catch`). -/
inductive FetchRes (α : Type) where
  | ok (val : α)
  | notOk
  | netErr

/-- A persisted cache value: `{headlines: [...], timestamp: number}`. -/
structure CacheEntry where
  headlines : List Headline
  timestamp : Int
deriving DecidableEq, Repr

/-- `localStorage`, restricted to the keys this module uses. -/
abbrev Store := List (String × CacheEntry)

/-- `localStorage.getItem` + `JSON.parse`. -/
def storeGet (st : Store) (k : String) : Option CacheEntry :=
  (st.find? (fun p => p.1 == k)).map (fun p => p.2)

/-- `localStorage.setItem` (overwrites any previous value at the key). -/
def storeSet (st : Store) (k : String) (v : CacheEntry) : Store :=
  (k, v) :: st.filter (fun p => p.1 != k)

/-- `localStorage.removeItem`. -/
def storeRemove (st : Store) (k : String) : Store :=
  st.filter (fun p => p.1 != k)

/-- The per-service cache key `news-ticker-cache-<service>` (line 288/310). -/
def cacheKey (service : String) : String := "news-ticker-cache-" ++ service

/-- `saveToCache` (lines 308–318): persists the current headlines with
`timestamp = Date.now()` under the service key. -/
def saveToCache (service : String) (now : Int) (store : Store)
    (headlines : List Headline) : Store :=
  storeSet store (cacheKey service) ⟨headlines, now⟩

/-- The store effect of `renderHeadlines` (lines 449–498): it returns early
when the ticker list element is missing or the headline list is empty, and
otherwise (after DOM work) calls `saveToCache` (line 492). -/
def renderHeadlines (service : String) (now : Int) (tickerList : Bool)
    (store : Store) (headlines : List Headline) : Store :=
  if !tickerList || headlines.isEmpty then store
  else saveToCache service now store headlines

/-- `loadFromCache` (lines 286–306): on a parse-able entry younger than one
hour, installs its headlines and renders (which re-saves); on an expired
entry, removes it and leaves the headlines unchanged; on a miss, changes
nothing.  Returns the new store and the new `this.headlines`. -/
def loadFromCache (service : String) (now : Int) (tickerList : Bool)
    (store : Store) (headlines : List Headline) : Store × List Headline :=
  match storeGet store (cacheKey service) with
  | some data =>
    if now - data.timestamp < 3600000 then
      (renderHeadlines service now tickerList store data.headlines, data.headlines)
    else
      (storeRemove store (cacheKey service), headlines)
  | none => (store, headlines)

/-- The service → fallback text file map (lines 321–329), with default
`news.txt`. -/
def fileFor (service : String) : String :=
  if service = "sports" then "news-sports.txt"
  else if service = "local" then "news-local.txt"
  else if service = "news" then "news.txt"
  else if service = "weather" then "news-weather.txt"
  else if service = "tweets" then "news-tweets.txt"
  else if service = "entertainment" then "news-entertainment.txt"
  else "news.txt"

/-- The four-URL fetch chain for the fallback text file (lines 333–344):
`/backup-file`, `backup-file`, `/file`, `file`; a non-ok response moves to
the next candidate, a thrown error aborts to the outer `catch` (`none`), and
all-not-ok also throws (`none`). -/
def resolveTxt (ft : String → FetchRes String) (file backupFile : String) :
    Option String :=
  match ft ("/" ++ backupFile) with
  | .ok t => some t
  | .netErr => none
  | .notOk =>
    match ft backupFile with
    | .ok t => some t
    | .netErr => none
    | .notOk =>
      match ft ("/" ++ file) with
      | .ok t => some t
      | .netErr => none
      | .notOk =>
        match ft file with
        | .ok t => some t
        | _ => none

/-- The two-URL fetch chain for a JSON path (lines 362–366 and 410–414):
root-absolute variant first, then the raw path; inside its own
`try`/`catch`, so every failure is `none`. -/
def resolveJson (fj : String → FetchRes JsonData) (p : String) :
    Option JsonData :=
  match fj (if startsWith p "/" then p else "/" ++ p) with
  | .ok d => some d
  | .netErr =>
    none
  | .notOk =>
    match fj p with
    | .ok d => some d
    | _ => none

/-- Line preprocessing (lines 346–349): split on newlines, trim, drop empty
lines and `#` comments. -/
def parseLines (text : String) : List String :=
  ((splitNl text).map jsTrim).filter
    (fun l => l != "" && !(startsWith l "#"))

/-- Directive selection (lines 353–356): the first line whose lowercase form
starts with `<service>-file`, else the first starting with `json-file`. -/
def findDirective (service : String) (lines : List String) : Option String :=
  match lines.find? (fun l => startsWith (toLowerCase l) (service ++ "-file")) with
  | some d => some d
  | none => lines.find? (fun l => startsWith (toLowerCase l) "json-file")

/-- The regex test `/\.json(\s|$)/i` at one position of the line. -/
def isJsonTokenAt : List Char → Bool
  | '.' :: c1 :: c2 :: c3 :: c4 :: rest =>
    Char.toLower c1 == 'j' && Char.toLower c2 == 's' &&
    Char.toLower c3 == 'o' && Char.toLower c4 == 'n' &&
      (match rest with
       | [] => true
       | c :: _ => c.isWhitespace)
  | _ => false

/-- The regex test `/\.json(\s|$)/i` anywhere in the character list. -/
def hasJsonTokenAux : List Char → Bool
  | [] => false
  | c :: rest => isJsonTokenAt (c :: rest) || hasJsonTokenAux rest

/-- `/\.json(\s|$)/i.test(l)` (line 406). -/
def hasJsonToken (l : String) : Bool := hasJsonTokenAux l.toList

/-- `mapItemToHeadline` of the directive stage (lines 372–394): the `tweets`
service synthesizes source/title/url, every other service uses the generic
shape adapter. -/
def mapItemToHeadline (service : String) (now : Int) (item : Item) : Headline :=
  if service = "tweets" then
    { source := some "TWITTER"
      title := some (jsTrim
        (jsOrS item.hashtag "" ++ " @" ++ jsOrS item.username "user" ++ ": " ++
          jsOrS item.comment (jsOrS item.text "")))
      url := some (match jsStr item.username with
        | some u => "https://twitter.com/" ++ u
        | none => jsOrS item.url "#")
      ts := some now }
  else
    { source := some (toUpperCase (jsOrS item.source service))
      title := some (jsOrS item.title (jsOrS item.text (jsOrS item.headline "")))
      url := some (jsOrS item.url "#")
      ts := some (jsOrN item.ts now) }

/-- The item mapper of the direct-`.json`-line stage (lines 418–423): a
single generic adapter that also knows the tweet shape. -/
def mapItemDirectJson (service : String) (now : Int) (item : Item) : Headline :=
  { source := some (toUpperCase (jsOrS item.source service))
    title := some (jsOrS item.title (jsTrim
      (jsOrS item.hashtag "" ++ " @" ++ jsOrS item.username "user" ++ ": " ++
        jsOrS item.comment (jsOrS item.text ""))))
    url := some (jsOrS item.url (match jsStr item.username with
      | some u => "https://twitter.com/" ++ u
      | none => "#"))
    ts := some (jsOrN item.ts now) }

/-- The directive stage (lines 351–402): if a directive names a JSON path
and it resolves, map `items.slice(0, max)` through the per-service adapter;
otherwise leave the headlines unchanged. -/
def directiveStage (service : String) (maxHeadlines : Nat)
    (fj : String → FetchRes JsonData) (now : Int) (lines : List String)
    (headlines0 : List Headline) : List Headline :=
  match findDirective service lines with
  | some directive =>
    match (splitWs directive)[1]? with
    | some jsonPath =>
      match resolveJson fj jsonPath with
      | some data =>
        ((extractItems data).take maxHeadlines).map (mapItemToHeadline service now)
      | none => headlines0
    | none => headlines0
  | none => headlines0

/-- The direct-`.json`-line stage (lines 404–430): runs only when the
headlines are still empty; the path is the first whitespace field of the
first line carrying a trailing `.json` token. -/
def directJsonStage (service : String) (maxHeadlines : Nat)
    (fj : String → FetchRes JsonData) (now : Int) (lines : List String)
    (hs1 : List Headline) : List Headline :=
  if hs1.isEmpty then
    match lines.find? hasJsonToken with
    | some jsonLine =>
      match resolveJson fj ((splitWs jsonLine).headD "") with
      | some data =>
        ((extractItems data).take maxHeadlines).map (mapItemDirectJson service now)
      | none => hs1
    | none => hs1
  else hs1

/-- The literal-lines stage (lines 432–441): if still empty, every
non-comment line becomes a headline title. -/
def plainLinesStage (service : String) (maxHeadlines : Nat) (now : Int)
    (lines : List String) (hs2 : List Headline) : List Headline :=
  if hs2.isEmpty then
    (lines.take maxHeadlines).map (fun line =>
      ⟨some (toUpperCase service), some line, some "#", some now⟩)
  else hs2

/-- `loadFallbackFromTxt` (lines 320–447): fetch the per-service text file
(backup variant first), then run the directive, direct-`.json`, and
literal-line stages in order; any escape to the outer `catch` leaves the
headlines unchanged. -/
def loadFallbackFromTxt (service : String) (maxHeadlines : Nat)
    (ft : String → FetchRes String) (fj : String → FetchRes JsonData)
    (now : Int) (headlines0 : List Headline) : List Headline :=
  let file := fileFor service
  let backupFile := "backup-" ++ file
  match resolveTxt ft file backupFile with
  | none => headlines0
  | some text =>
    let lines := parseLines text
    plainLinesStage service maxHeadlines now lines
      (directJsonStage service maxHeadlines fj now lines
        (directiveStage service maxHeadlines fj now lines headlines0))

/-- The sports-priority test (lines 241–244): the lowercased source contains
`plymouth` or `pafc`. -/
def isPlymouthSource (h : Headline) : Bool :=
  includes (toLowerCase (jsOrS h.source "")) "plymouth" ||
  includes (toLowerCase (jsOrS h.source "")) "pafc"

/-- The sort comparator (lines 238–252): for the sports service, priority
sources first; otherwise (and as tie-break) `(b.ts || 0) - (a.ts || 0)`. -/
def compareHeadlines (service : String) (a b : Headline) : Int :=
  if service = "sports" && isPlymouthSource a && !isPlymouthSource b then -1
  else if service = "sports" && !isPlymouthSource a && isPlymouthSource b then 1
  else jsOrN b.ts 0 - jsOrN a.ts 0

/-- `a` may come before `b` under the comparator (comparator value ≤ 0). -/
def headlineLe (service : String) (a b : Headline) : Bool :=
  decide (compareHeadlines service a b ≤ 0)

/-- `headlines.sort(comparator)`: a stable sort with a consistent
comparator, per ES2019 `Array.prototype.sort`. -/
def sortHeadlines (service : String) (l : List Headline) : List Headline :=
  l.mergeSort (headlineLe service)

/-- The spec's `FetchOutcome` classification of a resolve cycle. -/
inductive FetchOutcome where
  | remote (l : List Headline)
  | fallback (l : List Headline)
  | cache (l : List Headline)
  | empty
deriving DecidableEq, Repr

/-- The external world of one resolve cycle: the remote response (`none`
for any failure — network error, non-ok status, or non-array body), the
text/JSON fetchers for the fallback resources, the clock, and whether the
ticker list DOM element exists. -/
structure Env where
  remote : Option (List Headline)
  fetchText : String → FetchRes String
  fetchJson : String → FetchRes JsonData
  now : Int
  tickerList : Bool

/-- The instance state touched by a resolve cycle. -/
structure TickerState where
  headlines : List Headline
  offlineMode : Bool
  store : Store
deriving Repr

/-- `loadHeadlines` (lines 209–284): on remote success sort, cap, clear the
offline flag and render (which caches); on failure set the offline flag, try
the text fallback, then the cache, and render whatever was recovered.  The
returned `FetchOutcome` is the spec's classification of the branch taken. -/
def loadHeadlines (service : String) (maxHeadlines : Nat) (env : Env)
    (st : TickerState) : FetchOutcome × TickerState :=
  match env.remote with
  | some headlines =>
    let hs := (sortHeadlines service headlines).take maxHeadlines
    let store1 := renderHeadlines service env.now env.tickerList st.store hs
    (FetchOutcome.remote hs,
      { headlines := hs, offlineMode := false, store := store1 })
  | none =>
    let hs1 := loadFallbackFromTxt service maxHeadlines env.fetchText
        env.fetchJson env.now []
    if hs1.isEmpty then
      let p := loadFromCache service env.now env.tickerList st.store []
      let store2 := renderHeadlines service env.now env.tickerList p.1 p.2
      if p.2.isEmpty then
        (FetchOutcome.empty,
          { headlines := p.2, offlineMode := true, store := store2 })
      else
        (FetchOutcome.cache p.2,
          { headlines := p.2, offlineMode := true, store := store2 })
    else
      let store1 := renderHeadlines service env.now env.tickerList st.store hs1
      (FetchOutcome.fallback hs1,
        { headlines := hs1, offlineMode := true, store := store1 })

/-! ### Iterated cache reads (for the cache-refresh analysis) -/

/-- The store after one `loadFromCache` call at time `t` with the ticker
element present and empty current headlines (the state in which
`loadHeadlines` reaches the cache stage). -/
def readCacheAt (service : String) (st : Store) (t : Int) : Store :=
  (loadFromCache service t true st []).1

/-- The store after a sequence of `loadFromCache` calls at the given times. -/
def readCacheSeq (service : String) (st : Store) (times : List Int) : Store :=
  times.foldl (readCacheAt service) st

/-- Every listed time is less than one TTL (3600000 ms) after its
predecessor (the first, after `prev`). -/
def gapsOk : Int → List Int → Bool
  | _, [] => true
  | prev, t :: rest => decide (t - prev < 3600000) && gapsOk t rest

/-! ### The ordering property of the sports sort -/

/-- `a` may precede `b` in a correctly sorted sports list: a priority
(Plymouth) record never follows a non-priority one, and records of equal
priority class are in descending timestamp order (missing `ts` read as 0). -/
def sportsOrdered (a b : Headline) : Prop :=
  (isPlymouthSource b = true → isPlymouthSource a = true) ∧
  (isPlymouthSource a = isPlymouthSource b → jsOrN b.ts 0 ≤ jsOrN a.ts 0)

/-! ### Concrete scenario data -/

/-- Scenario record `{source:"BBC",title:"A",url:"http://a",ts:1000}`. -/
def recA : Headline := ⟨some "BBC", some "A", some "http://a", some 1000⟩

/-- Scenario record `{source:"PAFC",title:"B",url:"http://b",ts:500}`. -/
def recB : Headline := ⟨some "PAFC", some "B", some "http://b", some 500⟩

/-- The initial ticker state: no headlines, online, empty storage. -/
def st0 : TickerState := ⟨[], false, []⟩

/-- A remote environment returning `[recA, recB]` for the sports scenario. -/
def envSports : Env :=
  { remote := some [recA, recB]
    fetchText := fun _ => .notOk
    fetchJson := fun _ => .notOk
    now := 2000
    tickerList := true }

/-- Scenario tweet item `{hashtag:"#x",username:"u",comment:"hi"}`. -/
def itemX : Item :=
  { itemNone with hashtag := some "#x", username := some "u", comment := some "hi" }

/-- Offline environment for the tweets scenario: the remote fetch fails, the
fallback file holds `tweets-file /data/t.json`, and that JSON is `[itemX]`. -/
def envTweets (now : Int) : Env :=
  { remote := none
    fetchText := fun u =>
      if u = "/backup-news-tweets.txt" then .ok "tweets-file /data/t.json" else .notOk
    fetchJson := fun u => if u = "/data/t.json" then .ok (.arr [itemX]) else .notOk
    now := now
    tickerList := true }

/-- Offline environment whose fallback file is a single literal line. -/
def envLit : Env :=
  { remote := none
    fetchText := fun u =>
      if u = "/backup-news.txt" then .ok "hello world" else .notOk
    fetchJson := fun _ => .notOk
    now := 0
    tickerList := true }

/-- A fallback text file holding a generic `json-file` directive line first
and a service-specific `tweets-file` directive line after it. -/
def textBoth : String := "json-file /generic.json\ntweets-file /specific.json"

/-- JSON fetcher serving distinct tweet items at the generic and the
service-specific paths. -/
def fjBoth : String → FetchRes JsonData := fun u =>
  if u = "/specific.json" then .ok (.arr [{ itemNone with comment := some "specific" }])
  else if u = "/generic.json" then .ok (.arr [{ itemNone with comment := some "generic" }])
  else .notOk

/-- Text fetcher for the two-directive fallback file. -/
def ftBoth : String → FetchRes String := fun u =>
  if u = "/backup-news-tweets.txt" then .ok textBoth else .notOk

/-- A fallback file with no directive but a line carrying a `.JSON` token. -/
def ftDirect : String → FetchRes String := fun u =>
  if u = "/backup-news.txt" then .ok "intro line\ndata/items.JSON extra" else .notOk

/-- JSON fetcher for the direct-`.json`-line scenario, an `items` object. -/
def fjDirect : String → FetchRes JsonData := fun u =>
  if u = "/data/items.JSON" then
    .ok (.objItems [{ itemNone with title := some "direct", url := some "http://d" }])
  else .notOk

/-- A fallback file with neither directive nor `.json` token: two literal
headline lines. -/
def ftPlain : String → FetchRes String := fun u =>
  if u = "/backup-news.txt" then .ok "headline one\nheadline two" else .notOk

/-- A concrete headline used by the cache witnesses. -/
def hW : Headline := ⟨some "S", some "T", some "http://u", some 1⟩

/-! ## Helper lemmas -/

/-- Looking up the key just written returns the written entry. -/
theorem storeGet_storeSet (st : Store) (k : String) (v : CacheEntry) :
    storeGet (storeSet st k v) k = some v := by
  simp [storeGet, storeSet, List.find?]

/-- Looking up a removed key misses. -/
theorem storeGet_storeRemove (st : Store) (k : String) :
    storeGet (storeRemove st k) k = none := by
  have hnone : (List.filter (fun p => p.1 != k) st).find? (fun p => p.1 == k) = none := by
    rw [List.find?_eq_none]
    intro p hp
    have := (List.mem_filter.mp hp).2
    simp only [bne_iff_ne, ne_eq] at this
    simp [this]
  simp [storeGet, storeRemove, hnone]

/-- With the ticker element present and a non-empty list, rendering writes
the cache. -/
theorem renderHeadlines_cons_eq (service : String) (now : Int) (st : Store)
    (hs : List Headline) (h : hs ≠ []) :
    renderHeadlines service now true st hs = saveToCache service now st hs := by
  cases hs with
  | nil => exact absurd rfl h
  | cons a t => simp [renderHeadlines]

/-- A fresh (younger than one hour) cache entry is returned and rendered. -/
theorem loadFromCache_fresh (service : String) (now T : Int) (tl : Bool) (st : Store)
    (hs hs0 : List Headline)
    (hget : storeGet st (cacheKey service) = some ⟨hs, T⟩)
    (hfresh : now - T < 3600000) :
    loadFromCache service now tl st hs0 =
      (renderHeadlines service now tl st hs, hs) := by
  simp [loadFromCache, hget, hfresh]

/-- An expired cache entry is deleted and the headlines are unchanged. -/
theorem loadFromCache_expired (service : String) (now T : Int) (tl : Bool) (st : Store)
    (hs hs0 : List Headline)
    (hget : storeGet st (cacheKey service) = some ⟨hs, T⟩)
    (hexp : 3600000 ≤ now - T) :
    loadFromCache service now tl st hs0 =
      (storeRemove st (cacheKey service), hs0) := by
  have : ¬ (now - T < 3600000) := by omega
  simp [loadFromCache, hget, this]

/-- Branch equation of `loadHeadlines`: remote success. -/
theorem loadHeadlines_eq_remote (service : String) (maxHeadlines : Nat) (env : Env)
    (st : TickerState) (raw : List Headline) (henv : env.remote = some raw) :
    loadHeadlines service maxHeadlines env st =
      (FetchOutcome.remote ((sortHeadlines service raw).take maxHeadlines),
        { headlines := (sortHeadlines service raw).take maxHeadlines
          offlineMode := false
          store := renderHeadlines service env.now env.tickerList st.store
            ((sortHeadlines service raw).take maxHeadlines) }) := by
  unfold loadHeadlines
  rw [henv]

/-- Branch equation of `loadHeadlines`: remote failure, non-empty text
fallback. -/
theorem loadHeadlines_eq_fallback (service : String) (maxHeadlines : Nat) (env : Env)
    (st : TickerState) (henv : env.remote = none)
    (hne : (loadFallbackFromTxt service maxHeadlines env.fetchText env.fetchJson
      env.now []).isEmpty = false) :
    loadHeadlines service maxHeadlines env st =
      (FetchOutcome.fallback (loadFallbackFromTxt service maxHeadlines env.fetchText
          env.fetchJson env.now []),
        { headlines := loadFallbackFromTxt service maxHeadlines env.fetchText
            env.fetchJson env.now []
          offlineMode := true
          store := renderHeadlines service env.now env.tickerList st.store
            (loadFallbackFromTxt service maxHeadlines env.fetchText env.fetchJson
              env.now []) }) := by
  unfold loadHeadlines
  rw [henv]
  simp only [hne, Bool.false_eq_true, if_false]

/-- Branch equation of `loadHeadlines`: remote and fallback fail, the cache
stage yields nothing. -/
theorem loadHeadlines_eq_empty (service : String) (maxHeadlines : Nat) (env : Env)
    (st : TickerState) (henv : env.remote = none)
    (hemp : (loadFallbackFromTxt service maxHeadlines env.fetchText env.fetchJson
      env.now []).isEmpty = true)
    (hc : (loadFromCache service env.now env.tickerList st.store []).2.isEmpty = true) :
    loadHeadlines service maxHeadlines env st =
      (FetchOutcome.empty,
        { headlines := (loadFromCache service env.now env.tickerList st.store []).2
          offlineMode := true
          store := renderHeadlines service env.now env.tickerList
            (loadFromCache service env.now env.tickerList st.store []).1
            (loadFromCache service env.now env.tickerList st.store []).2 }) := by
  unfold loadHeadlines
  rw [henv]
  simp only [hemp, if_true, hc]

/-- Branch equation of `loadHeadlines`: remote and fallback fail, the cache
stage yields a non-empty list. -/
theorem loadHeadlines_eq_cache (service : String) (maxHeadlines : Nat) (env : Env)
    (st : TickerState) (henv : env.remote = none)
    (hemp : (loadFallbackFromTxt service maxHeadlines env.fetchText env.fetchJson
      env.now []).isEmpty = true)
    (hc : (loadFromCache service env.now env.tickerList st.store []).2.isEmpty = false) :
    loadHeadlines service maxHeadlines env st =
      (FetchOutcome.cache (loadFromCache service env.now env.tickerList st.store []).2,
        { headlines := (loadFromCache service env.now env.tickerList st.store []).2
          offlineMode := true
          store := renderHeadlines service env.now env.tickerList
            (loadFromCache service env.now env.tickerList st.store []).1
            (loadFromCache service env.now env.tickerList st.store []).2 }) := by
  unfold loadHeadlines
  rw [henv]
  simp only [hemp, if_true, hc, Bool.false_eq_true, if_false]

/-- The comparator-based order of the sports sort, unfolded. -/
theorem headlineLe_sports_iff (a b : Headline) :
    headlineLe "sports" a b = true ↔
      ((isPlymouthSource a = true ∧ isPlymouthSource b = false) ∨
       (isPlymouthSource a = isPlymouthSource b ∧ jsOrN b.ts 0 ≤ jsOrN a.ts 0)) := by
  unfold headlineLe compareHeadlines
  cases ha : isPlymouthSource a <;> cases hb : isPlymouthSource b <;>
    simp [ha, hb]

/-- The sports comparator order is transitive. -/
theorem headlineLe_sports_trans (a b c : Headline) :
    headlineLe "sports" a b → headlineLe "sports" b c → headlineLe "sports" a c := by
  intro h1 h2
  rw [headlineLe_sports_iff] at *
  rcases h1 with ⟨p1, q1⟩ | ⟨p1, q1⟩ <;> rcases h2 with ⟨p2, q2⟩ | ⟨p2, q2⟩
  · left; exact ⟨p1, q2⟩
  · left; exact ⟨p1, by rw [← p2, q1]⟩
  · left; exact ⟨by rw [p1, p2], q2⟩
  · right; exact ⟨by rw [p1, p2], le_trans q2 q1⟩

/-- The sports comparator order is total. -/
theorem headlineLe_sports_total (a b : Headline) :
    headlineLe "sports" a b || headlineLe "sports" b a := by
  rw [Bool.or_eq_true, headlineLe_sports_iff, headlineLe_sports_iff]
  cases ha : isPlymouthSource a <;> cases hb : isPlymouthSource b <;> simp <;> omega

/-- The sports sort produces a list pairwise ordered by `sportsOrdered`. -/
theorem sorted_sortHeadlines_sports (l : List Headline) :
    (sortHeadlines "sports" l).Pairwise sportsOrdered := by
  apply List.Pairwise.imp ?step
      (List.sorted_mergeSort headlineLe_sports_trans headlineLe_sports_total l)
  intro a b hle
  rw [headlineLe_sports_iff] at hle
  constructor
  · intro hb
    rcases hle with ⟨p, q⟩ | ⟨p, q⟩
    · exact p
    · rw [p, hb]
  · intro hab
    rcases hle with ⟨p, q⟩ | ⟨p, q⟩
    · rw [p, q] at hab; cases hab
    · exact q

/-- The directive stage starting from empty headlines is capped. -/
theorem directiveStage_length (service : String) (maxHeadlines : Nat)
    (fj : String → FetchRes JsonData) (now : Int) (lines : List String) :
    (directiveStage service maxHeadlines fj now lines []).length ≤ maxHeadlines := by
  unfold directiveStage
  split
  · split
    · split
      · simp [List.length_take]
      · simp
    · simp
  · simp

/-- The direct-`.json` stage preserves the cap. -/
theorem directJsonStage_length (service : String) (maxHeadlines : Nat)
    (fj : String → FetchRes JsonData) (now : Int) (lines : List String)
    (hs1 : List Headline) (h : hs1.length ≤ maxHeadlines) :
    (directJsonStage service maxHeadlines fj now lines hs1).length ≤ maxHeadlines := by
  unfold directJsonStage
  split
  · split
    · split
      · simp [List.length_take]
      · exact h
    · exact h
  · exact h

/-- The literal-lines stage preserves the cap. -/
theorem plainLinesStage_length (service : String) (maxHeadlines : Nat) (now : Int)
    (lines : List String) (hs2 : List Headline) (h : hs2.length ≤ maxHeadlines) :
    (plainLinesStage service maxHeadlines now lines hs2).length ≤ maxHeadlines := by
  unfold plainLinesStage
  split
  · simp [List.length_take]
  · exact h

/-- Whatever the fallback loader produces from empty headlines is capped. -/
theorem loadFallbackFromTxt_length (service : String) (maxHeadlines : Nat)
    (ft : String → FetchRes String) (fj : String → FetchRes JsonData) (now : Int) :
    (loadFallbackFromTxt service maxHeadlines ft fj now []).length ≤ maxHeadlines := by
  unfold loadFallbackFromTxt
  simp only []
  split
  · simp
  · exact plainLinesStage_length _ _ _ _ _
      (directJsonStage_length _ _ _ _ _ _ (directiveStage_length _ _ _ _ _))

/-- One fresh cache read rewrites the entry with the read time. -/
theorem readCacheAt_fresh (service : String) (st : Store) (hs : List Headline) (T t : Int)
    (hne : hs ≠ []) (hget : storeGet st (cacheKey service) = some ⟨hs, T⟩)
    (h : t - T < 3600000) :
    readCacheAt service st t = storeSet st (cacheKey service) ⟨hs, t⟩ := by
  unfold readCacheAt
  rw [loadFromCache_fresh service t T true st hs [] hget h]
  rw [renderHeadlines_cons_eq _ _ _ _ hne]
  rfl

/-! ## Claim theorems -/

/-- C1: for every service, environment and state, `loadHeadlines` (the
spec's `resolve`) is a total function — the embedding translates every
`try`/`catch` branch of the source — and its result is always classified as
one of the four outcomes `Remote`, `Fallback`, `Cache`, or `Empty`. -/
theorem resolve_always_one_of_four_outcomes (service : String) (maxHeadlines : Nat)
    (env : Env) (st : TickerState) :
    (∃ l, (loadHeadlines service maxHeadlines env st).1 = FetchOutcome.remote l) ∨
    (∃ l, (loadHeadlines service maxHeadlines env st).1 = FetchOutcome.fallback l) ∨
    (∃ l, (loadHeadlines service maxHeadlines env st).1 = FetchOutcome.cache l) ∨
    (loadHeadlines service maxHeadlines env st).1 = FetchOutcome.empty := by
  rcases h : (loadHeadlines service maxHeadlines env st).1 with l | l | l | _
  · exact Or.inl ⟨l, rfl⟩
  · exact Or.inr (Or.inl ⟨l, rfl⟩)
  · exact Or.inr (Or.inr (Or.inl ⟨l, rfl⟩))
  · exact Or.inr (Or.inr (Or.inr rfl))

/-- C2 counterexample: with the remote fetch failing and a one-line literal
fallback file, the outcome is `Fallback` and the persistent cache entry for
the service — absent beforehand — has been written with the fallback list:
`renderHeadlines` (line 492 of the source) calls `saveToCache`
unconditionally, also on the fallback path (line 281). -/
theorem fallback_writes_cache_counterexample :
    (loadHeadlines "news" 50 envLit st0).1 =
      FetchOutcome.fallback [⟨some "NEWS", some "hello world", some "#", some 0⟩] ∧
    storeGet st0.store (cacheKey "news") = none ∧
    storeGet (loadHeadlines "news" 50 envLit st0).2.store (cacheKey "news") =
      some ⟨[⟨some "NEWS", some "hello world", some "#", some 0⟩], 0⟩ :=
  ⟨rfl, rfl, rfl⟩

/-- C2 (amended): when the remote fetch fails and the fallback yields a
non-empty list (`Fallback` outcome), the render step DOES write that list
back to the persistent cache entry of the service, timestamped with the
resolution time, whenever the ticker list element exists. -/
theorem fallback_written_back_to_cache (service : String) (maxHeadlines : Nat)
    (env : Env) (st : TickerState) (l : List Headline)
    (hr : env.remote = none) (htl : env.tickerList = true)
    (hf : (loadHeadlines service maxHeadlines env st).1 = FetchOutcome.fallback l) :
    storeGet (loadHeadlines service maxHeadlines env st).2.store (cacheKey service) =
      some ⟨l, env.now⟩ := by
  cases hE : (loadFallbackFromTxt service maxHeadlines env.fetchText env.fetchJson
      env.now []).isEmpty with
  | true =>
    cases hc : (loadFromCache service env.now env.tickerList st.store []).2.isEmpty with
    | true =>
      rw [loadHeadlines_eq_empty service maxHeadlines env st hr hE hc] at hf
      cases hf
    | false =>
      rw [loadHeadlines_eq_cache service maxHeadlines env st hr hE hc] at hf
      cases hf
  | false =>
    rw [loadHeadlines_eq_fallback service maxHeadlines env st hr hE] at hf ⊢
    simp only [FetchOutcome.fallback.injEq] at hf
    subst hf
    rw [htl, renderHeadlines_cons_eq _ _ _ _ (by simpa using hE)]
    exact storeGet_storeSet _ _ _

/-- C2 witness for the amended claim, at the literal-fallback environment. -/
theorem fallback_written_back_to_cache_witness :
    storeGet (loadHeadlines "news" 50 envLit st0).2.store (cacheKey "news") =
      some ⟨[⟨some "NEWS", some "hello world", some "#", some 0⟩], envLit.now⟩ :=
  fallback_written_back_to_cache "news" 50 envLit st0
    [⟨some "NEWS", some "hello world", some "#", some 0⟩] rfl rfl rfl

unseal List.merge List.mergeSort in
/-- C3: after a successful remote fetch for the sports service the resolved
list is pairwise ordered: a record matching the priority predicate (source
case-insensitively containing `plymouth` or `pafc`) never follows a
non-matching one, and records of equal priority class are in descending
timestamp order (missing `ts` read as 0).  Moreover, for the remote response
`[recA, recB]` (`A` from BBC at ts 1000, `B` from PAFC at ts 500) the
resolved outcome is `Remote [B, A]`. -/
theorem sports_priority_ordering :
    (∀ (maxHeadlines : Nat) (env : Env) (st : TickerState) (l : List Headline),
      env.remote = some l →
      ((loadHeadlines "sports" maxHeadlines env st).2.headlines).Pairwise sportsOrdered) ∧
    (loadHeadlines "sports" 50 envSports st0).1 = FetchOutcome.remote [recB, recA] := by
  constructor
  · intro maxHeadlines env st l henv
    rw [loadHeadlines_eq_remote "sports" maxHeadlines env st l henv]
    exact (sorted_sortHeadlines_sports l).sublist (List.take_sublist _ _)
  · rfl

/-- C3 witness: the ordering part applied to the concrete sports scenario. -/
theorem sports_priority_ordering_witness :
    ((loadHeadlines "sports" 50 envSports st0).2.headlines).Pairwise sportsOrdered :=
  sports_priority_ordering.1 50 envSports st0 [recA, recB] rfl

/-- C4: an entry cached at time `T1` is returned by a read at `T2` whenever
`T2 - T1 < 3600000`; when `T2 - T1 ≥ 3600000` it is treated as absent (the
headlines stay as they were) and the entry is deleted by the read. -/
theorem cache_ttl_read_and_purge (service : String) (T1 T2 : Int)
    (hs hs0 : List Headline) (tl : Bool) (st : Store) :
    (T2 - T1 < 3600000 →
      (loadFromCache service T2 tl (saveToCache service T1 st hs) hs0).2 = hs) ∧
    (3600000 ≤ T2 - T1 →
      (loadFromCache service T2 tl (saveToCache service T1 st hs) hs0).2 = hs0 ∧
      storeGet (loadFromCache service T2 tl (saveToCache service T1 st hs) hs0).1
        (cacheKey service) = none) := by
  have hget : storeGet (saveToCache service T1 st hs) (cacheKey service) =
      some ⟨hs, T1⟩ := storeGet_storeSet _ _ _
  constructor
  · intro h
    rw [loadFromCache_fresh service T2 T1 tl _ hs hs0 hget h]
  · intro h
    rw [loadFromCache_expired service T2 T1 tl _ hs hs0 hget h]
    exact ⟨rfl, storeGet_storeRemove _ _⟩

/-- C4 witness: both TTL branches at concrete times 100 (fresh) and 3600000
(expired) for an entry written at time 0. -/
theorem cache_ttl_read_and_purge_witness :
    (loadFromCache "news" 100 true (saveToCache "news" 0 [] [hW]) []).2 = [hW] ∧
    ((loadFromCache "news" 3600000 true (saveToCache "news" 0 [] [hW]) []).2 = [] ∧
      storeGet (loadFromCache "news" 3600000 true (saveToCache "news" 0 [] [hW]) []).1
        (cacheKey "news") = none) :=
  ⟨(cache_ttl_read_and_purge "news" 0 100 [hW] [] true []).1 (by decide),
   (cache_ttl_read_and_purge "news" 0 3600000 [hW] [] true []).2 (by decide)⟩

/-- C5: directive precedence.  First, whenever the fallback file contains a
line whose lowercase form starts with `<service>-file`, the selected
directive is such a line (so a service-specific directive always beats a
generic `json-file` line).  The closed conjuncts walk the rest of the
precedence chain: with both directives present — the generic one first in
the file — the service-specific JSON is loaded; with no directive but a
`.JSON`-token line, that path is loaded; with neither, the non-comment lines
themselves become the headlines. -/
theorem fallback_directive_precedence :
    (∀ (service : String) (lines : List String) (d : String),
      d ∈ lines → startsWith (toLowerCase d) (service ++ "-file") = true →
      ∃ e, findDirective service lines = some e ∧
        startsWith (toLowerCase e) (service ++ "-file") = true) ∧
    findDirective "tweets" (parseLines textBoth) = some "tweets-file /specific.json" ∧
    loadFallbackFromTxt "tweets" 50 ftBoth fjBoth 999 [] =
      [⟨some "TWITTER", some "@user: specific", some "#", some 999⟩] ∧
    loadFallbackFromTxt "news" 50 ftDirect fjDirect 888 [] =
      [⟨some "NEWS", some "direct", some "http://d", some 888⟩] ∧
    loadFallbackFromTxt "news" 50 ftPlain (fun _ => .notOk) 777 [] =
      [⟨some "NEWS", some "headline one", some "#", some 777⟩,
       ⟨some "NEWS", some "headline two", some "#", some 777⟩] := by
  refine ⟨?gen, rfl, rfl, rfl, rfl⟩
  intro service lines d hd hp
  have hsome : (lines.find?
      (fun l => startsWith (toLowerCase l) (service ++ "-file"))).isSome := by
    rw [List.find?_isSome]
    exact ⟨d, hd, hp⟩
  obtain ⟨e, he⟩ := Option.isSome_iff_exists.mp hsome
  have hpe : startsWith (toLowerCase e) (service ++ "-file") = true := by
    simpa using List.find?_some he
  exact ⟨e, by simp [findDirective, he], hpe⟩

/-- C5 witness: the service-specific selection applied to the two-directive
line list. -/
theorem fallback_directive_precedence_witness :
    ∃ e, findDirective "tweets"
        ["json-file /generic.json", "tweets-file /specific.json"] = some e ∧
      startsWith (toLowerCase e) ("tweets" ++ "-file") = true :=
  fallback_directive_precedence.1 "tweets"
    ["json-file /generic.json", "tweets-file /specific.json"]
    "tweets-file /specific.json" (by simp) rfl

/-- C6: on the remote path and on every fallback path the resolved headline
list never exceeds the configured maximum count, whatever the input
lengths. -/
theorem resolve_result_truncated (service : String) (maxHeadlines : Nat) (env : Env)
    (st : TickerState) (l : List Headline) :
    ((loadHeadlines service maxHeadlines env st).1 = FetchOutcome.remote l →
      l.length ≤ maxHeadlines) ∧
    ((loadHeadlines service maxHeadlines env st).1 = FetchOutcome.fallback l →
      l.length ≤ maxHeadlines) := by
  cases henv : env.remote with
  | some raw =>
    rw [loadHeadlines_eq_remote service maxHeadlines env st raw henv]
    constructor
    · intro h
      simp only [FetchOutcome.remote.injEq] at h
      subst h
      simp [List.length_take]
    · intro h
      simp at h
  | none =>
    cases hE : (loadFallbackFromTxt service maxHeadlines env.fetchText env.fetchJson
        env.now []).isEmpty with
    | false =>
      rw [loadHeadlines_eq_fallback service maxHeadlines env st henv hE]
      constructor
      · intro h
        simp at h
      · intro h
        simp only [FetchOutcome.fallback.injEq] at h
        subst h
        exact loadFallbackFromTxt_length _ _ _ _ _
    | true =>
      cases hc : (loadFromCache service env.now env.tickerList st.store []).2.isEmpty with
      | true =>
        rw [loadHeadlines_eq_empty service maxHeadlines env st henv hE hc]
        exact ⟨fun h => by simp at h, fun h => by simp at h⟩
      | false =>
        rw [loadHeadlines_eq_cache service maxHeadlines env st henv hE hc]
        exact ⟨fun h => by simp at h, fun h => by simp at h⟩

unseal List.merge List.mergeSort in
/-- C6 witness: the bound at a concrete remote resolution and at a concrete
fallback resolution. -/
theorem resolve_result_truncated_witness :
    ([recB, recA] : List Headline).length ≤ 50 ∧
    ([⟨some "TWITTER", some "#x @u: hi", some "https://twitter.com/u", some 5⟩] :
      List Headline).length ≤ 50 :=
  ⟨(resolve_result_truncated "sports" 50 envSports st0 [recB, recA]).1 rfl,
   (resolve_result_truncated "tweets" 50 (envTweets 5) st0
      [⟨some "TWITTER", some "#x @u: hi", some "https://twitter.com/u", some 5⟩]).2 rfl⟩

/-- C7: for the tweets service with the remote fetch failing, a
`tweets-file /data/t.json` directive, and that JSON being
`[{hashtag:"#x",username:"u",comment:"hi"}]`, the resolved outcome is a
single headline with source `TWITTER`, title exactly `#x @u: hi`, url
`https://twitter.com/u`, and timestamp equal to the resolution time. -/
theorem tweets_fallback_scenario (now : Int) :
    (loadHeadlines "tweets" 50 (envTweets now) st0).1 =
      FetchOutcome.fallback
        [⟨some "TWITTER", some "#x @u: hi", some "https://twitter.com/u", some now⟩] ∧
    (loadHeadlines "tweets" 50 (envTweets now) st0).2.headlines =
      [⟨some "TWITTER", some "#x @u: hi", some "https://twitter.com/u", some now⟩] :=
  ⟨rfl, rfl⟩

/-- C8: the offline flag of the post-resolution state is false exactly when
the remote fetch succeeded: any remote failure sets it, and no fallback,
cache or empty outcome (all of which occur only under a failed remote
fetch) resets it. -/
theorem offline_flag_semantics (service : String) (maxHeadlines : Nat) (env : Env)
    (st : TickerState) :
    (env.remote.isSome →
      (loadHeadlines service maxHeadlines env st).2.offlineMode = false) ∧
    (env.remote = none →
      (loadHeadlines service maxHeadlines env st).2.offlineMode = true) := by
  constructor
  · intro h
    obtain ⟨raw, henv⟩ := Option.isSome_iff_exists.mp h
    rw [loadHeadlines_eq_remote service maxHeadlines env st raw henv]
  · intro henv
    cases hE : (loadFallbackFromTxt service maxHeadlines env.fetchText env.fetchJson
        env.now []).isEmpty with
    | false =>
      rw [loadHeadlines_eq_fallback service maxHeadlines env st henv hE]
    | true =>
      cases hc : (loadFromCache service env.now env.tickerList st.store []).2.isEmpty with
      | true => rw [loadHeadlines_eq_empty service maxHeadlines env st henv hE hc]
      | false => rw [loadHeadlines_eq_cache service maxHeadlines env st henv hE hc]

unseal List.merge List.mergeSort in
/-- C8 witness: flag cleared on a concrete remote success, set on a concrete
remote failure. -/
theorem offline_flag_semantics_witness :
    (loadHeadlines "sports" 50 envSports st0).2.offlineMode = false ∧
    (loadHeadlines "tweets" 50 (envTweets 3) st0).2.offlineMode = true :=
  ⟨(offline_flag_semantics "sports" 50 envSports st0).1 rfl,
   (offline_flag_semantics "tweets" 50 (envTweets 3) st0).2 rfl⟩

/-- C9: a headline list written to the cache and read back before TTL expiry
is returned unchanged (write-then-read is the identity on the stored
list). -/
theorem cache_write_read_roundtrip (service : String) (T1 T2 : Int)
    (hs hs0 : List Headline) (tl : Bool) (st : Store)
    (h : T2 - T1 < 3600000) :
    (loadFromCache service T2 tl (saveToCache service T1 st hs) hs0).2 = hs := by
  have hget : storeGet (saveToCache service T1 st hs) (cacheKey service) =
      some ⟨hs, T1⟩ := storeGet_storeSet _ _ _
  rw [loadFromCache_fresh service T2 T1 tl _ hs hs0 hget h]

/-- C9 witness: round trip at concrete times 10 and 50. -/
theorem cache_write_read_roundtrip_witness :
    (loadFromCache "local" 50 true (saveToCache "local" 10 [] [hW]) []).2 = [hW] :=
  cache_write_read_roundtrip "local" 10 50 [hW] [] true [] (by decide)

/-- C10: a non-expired cache read of a non-empty entry (with the ticker
element present) is not pure: it rewrites the entry with `timestamp = now`;
consequently, for any sequence of reads each within one TTL of its
predecessor, the entry survives with its timestamp equal to the last read
time — an entry read at least once per hour never expires. -/
theorem cache_read_rewrites_entry (service : String) (hs : List Headline) (T : Int)
    (st : Store) (times : List Int) (hne : hs ≠ [])
    (hget : storeGet st (cacheKey service) = some ⟨hs, T⟩)
    (hgaps : gapsOk T times = true) :
    storeGet (readCacheSeq service st times) (cacheKey service) =
      some ⟨hs, times.getLastD T⟩ := by
  induction times generalizing st T with
  | nil => simpa [readCacheSeq] using hget
  | cons t rest ih =>
    rw [gapsOk, Bool.and_eq_true, decide_eq_true_eq] at hgaps
    have hstep := readCacheAt_fresh service st hs T t hne hget hgaps.1
    have hseq : readCacheSeq service st (t :: rest) =
        readCacheSeq service (readCacheAt service st t) rest := rfl
    rw [hseq, hstep, List.getLastD_cons]
    exact ih t (storeSet st (cacheKey service) ⟨hs, t⟩)
      (storeGet_storeSet _ _ _) hgaps.2

/-- C10 witness: an entry written at time 0 and read at times 100 and
3600050 (each gap under one hour) is still present afterwards, with its
timestamp pushed past the original one-hour expiry. -/
theorem cache_read_rewrites_entry_witness :
    storeGet (readCacheSeq "news" [(cacheKey "news", ⟨[hW], 0⟩)] [100, 3600050])
        (cacheKey "news") = some ⟨[hW], 3600050⟩ :=
  cache_read_rewrites_entry "news" [hW] 0 [(cacheKey "news", ⟨[hW], 0⟩)]
    [100, 3600050] (by simp) rfl (by decide)

end NewsTicker
